import Mathlib

/-!
Verification development for the esi-auth repository.

This file gives a shallow embedding of the authentication-flow and
token-lifecycle core of the repository and proves properties of it:

* `CharacterToken` with its lifecycle predicates (`src/esi_auth/esi_auth.py`,
  `src/esi_auth/models.py`),
* the batch refresh orchestration `_refresh_all_tokens` / `get_all_tokens`
  (`src/esi_auth/esi_auth.py`),
* the buffer validation of `get_authorized_characters` (`src/esi_auth/api.py`),
* the local OAuth callback listener (`scripts/esi_pkce_auth_example.py`
  `run_callback_server`, identical in structure to
  `ESIAuthenticator._run_callback_server` in `src/esi_auth/auth.py`),
* PKCE challenge generation `generate_code_challenge` and the authorization
  URL builder `redirect_to_sso` (`scripts/esi_pkce_auth_example.py`),
* the per-item refresh operations `EsiAuth._refresh_token` and the legacy
  `ESIAuthenticator.refresh_character_token`.

Instants of the `whenever` library are modelled as integer numbers of
seconds; byte strings are modelled as `List Nat` of byte values.
-/

namespace EsiAuth

/-- CharacterToken as defined in `src/esi_auth/esi_auth.py` (the variant in
`models.py` has the same fields minus `client_id`).  Instants are integer
seconds. -/
structure CharacterToken where
  character_id : Nat
  character_name : String
  access_token : String
  refresh_token : String
  expires_at : Int
  scopes : List String
  token_type : String
  client_id : String
  created_at : Int
  updated_at : Int
deriving Repr, DecidableEq

/-- `CharacterToken.is_expired`: `Instant.now() >= self.expires_at`.
The current instant is passed explicitly. -/
def CharacterToken.is_expired (t : CharacterToken) (now : Int) : Bool :=
  decide (t.expires_at ≤ now)

/-- `CharacterToken.needs_refresh`: `Instant.now() >= self.expires_at.subtract(minutes=buffer_minutes)`. -/
def CharacterToken.needs_refresh (t : CharacterToken) (buffer_minutes : Int)
    (now : Int) : Bool :=
  decide (t.expires_at - 60 * buffer_minutes ≤ now)

/-- Outcome of one token refresh: either a refreshed token or the exception
gathered by `asyncio.gather(..., return_exceptions=True)`, modelled by its
message. -/
abbrev RefreshOutcome := Except String CharacterToken

/-- Test used by the write-back loop of `get_all_tokens`:
`isinstance(token, BaseException)`. -/
def isRefreshError : RefreshOutcome → Bool
  | .error _ => true
  | .ok _ => false

/-- `EsiAuth._refresh_all_tokens`: one refresh task per input token, gathered
with `return_exceptions=True`, so the result list has the i-th outcome for the
i-th input.  The per-token refresh (network exchange plus JWT validation) is
abstracted as `refreshOne`. -/
def refreshAllTokens (refreshOne : CharacterToken → RefreshOutcome)
    (tokens : List CharacterToken) : List RefreshOutcome :=
  tokens.map refreshOne

/-- State of the token store for one client id: `tokens` is the in-memory
dict `store.tokens[client_id]` (insertion ordered, keyed by character id),
`disk` is the last snapshot written by `_save_store` (`none` if never
saved). -/
structure TokenStoreState where
  tokens : List (Nat × CharacterToken)
  disk : Option (List (Nat × CharacterToken))
deriving Repr, DecidableEq

/-- Python dict assignment `d[k] = v`: update in place if the key exists,
else append. -/
def dictInsert : List (Nat × CharacterToken) → Nat → CharacterToken →
    List (Nat × CharacterToken)
  | [], k, v => [(k, v)]
  | (k', v') :: rest, k, v =>
    if k' = k then (k, v) :: rest else (k', v') :: dictInsert rest k v

/-- Python dict lookup `d.get(k)`. -/
def dictGet : List (Nat × CharacterToken) → Nat → Option CharacterToken
  | [], _ => none
  | (k', v') :: rest, k => if k' = k then some v' else dictGet rest k

/-- `EsiAuth._save_store`: snapshot the in-memory store to disk. -/
def save_store (st : TokenStoreState) : TokenStoreState :=
  { st with disk := some st.tokens }

/-- Tokens of the store that need a refresh, as computed by the list
comprehension in `EsiAuth.get_all_tokens`. -/
def tokensNeedingRefresh (buffer now : Int) (st : TokenStoreState) :
    List CharacterToken :=
  (st.tokens.map Prod.snd).filter (fun t => t.needs_refresh buffer now)

/-- Tokens of the store that do not need a refresh (`ready_tokens`). -/
def tokensReady (buffer now : Int) (st : TokenStoreState) :
    List CharacterToken :=
  (st.tokens.map Prod.snd).filter (fun t => !(t.needs_refresh buffer now))

/-- The `for token in refreshed_tokens` loop of `EsiAuth.get_all_tokens`:
failures are collected, successes are written into the store dict, flagged
dirty and appended to the ready list. -/
def refresh_write_loop (st : TokenStoreState) (dirty : Bool)
    (ready : List CharacterToken) (failed : List String) :
    List RefreshOutcome → TokenStoreState × Bool × List CharacterToken × List String
  | [] => (st, dirty, ready, failed)
  | .error e :: rest => refresh_write_loop st dirty ready (failed ++ [e]) rest
  | .ok t :: rest =>
    refresh_write_loop { st with tokens := dictInsert st.tokens t.character_id t }
      true (ready ++ [t]) failed rest

/-- Successful outcomes of a refresh batch, in order. -/
def okValues : List RefreshOutcome → List CharacterToken
  | [] => []
  | .ok t :: rest => t :: okValues rest
  | .error _ :: rest => okValues rest

/-- Failed outcomes of a refresh batch, in order. -/
def errValues : List RefreshOutcome → List String
  | [] => []
  | .ok _ :: rest => errValues rest
  | .error e :: rest => e :: errValues rest

/-- Writing a list of tokens into the store dict, left to right. -/
def insertAll (l : List (Nat × CharacterToken)) (ts : List CharacterToken) :
    List (Nat × CharacterToken) :=
  ts.foldl (fun l t => dictInsert l t.character_id t) l

/-- Tail of `EsiAuth.get_all_tokens` after the write-back loop: save the
store if any success made it dirty, then raise if anything failed, else
return the ready list. -/
def refresh_finish (r : TokenStoreState × Bool × List CharacterToken × List String) :
    TokenStoreState × Except String (List CharacterToken) :=
  let st2 := if r.2.1 then save_store r.1 else r.1
  if r.2.2.2 ≠ [] then
    (st2, .error (toString r.2.2.2.length ++ " tokens failed to refresh."))
  else (st2, .ok r.2.2.1)

/-- `EsiAuth.get_all_tokens` for one client: copy the stored tokens, split
into needing/not needing refresh (skipped entirely for `buffer = -1`),
refresh the needy ones as a batch, write back successes, save the store if
dirty, then raise if anything failed, else return the ready list.
`hasCreds` is the `is_credentials_in_store` test. -/
def get_all_tokens (hasCreds : Bool) (refreshOne : CharacterToken → RefreshOutcome)
    (buffer now : Int) (st : TokenStoreState) :
    TokenStoreState × Except String (List CharacterToken) :=
  if hasCreds then
    if buffer = -1 then (st, .ok (st.tokens.map Prod.snd))
    else
      refresh_finish
        (refresh_write_loop st false (tokensReady buffer now st) []
          (refreshAllTokens refreshOne (tokensNeedingRefresh buffer now st)))
  else (st, .ok [])

/-- Buffer validation of `get_authorized_characters` in `src/esi_auth/api.py`.
The refresh-and-list pipeline that follows a successful validation is
abstracted as its result `characters`; a validation failure short-circuits
before it. -/
def get_authorized_characters (buffer_minutes : Int)
    (characters : List CharacterToken) : Except String (List CharacterToken) :=
  if buffer_minutes < 0 then .error "buffer_minutes must be non-negative"
  else if buffer_minutes > 15 then
    .error "buffer_minutes should not exceed 15 minutes"
  else .ok characters

/-- Query parameters of one inbound callback request, each `none` when the
key is absent. -/
structure CallbackQuery where
  error : Option String
  error_description : Option String
  state : Option String
  code : Option String
deriving Repr, DecidableEq

/-- The two nonlocal variables of `run_callback_server` mutated by its nested
`callback_handler`. -/
structure ListenerState where
  authorization_code : Option String
  error_message : Option String
deriving Repr, DecidableEq

/-- Body of the nested `callback_handler` of `run_callback_server`
(`scripts/esi_pkce_auth_example.py`, identical in
`ESIAuthenticator._run_callback_server`): check `error`, then `state`, then
capture `code` (an absent or empty `code` is falsy and records an error). -/
def callback_handler (expected_state : String) (st : ListenerState)
    (q : CallbackQuery) : ListenerState :=
  match q.error with
  | some e => { st with error_message := some (q.error_description.getD e) }
  | none =>
    if q.state ≠ some expected_state then
      { st with error_message := some "Invalid state parameter (possible CSRF attack)" }
    else
      let st' := { st with authorization_code := q.code }
      if q.code = none ∨ q.code = some "" then
        { st' with error_message := some "No authorization code received" }
      else st'

/-- Result computation of `run_callback_server`: the handler processes each
inbound request that arrives before the 1-second poll loop observes a
terminal condition (several requests can land in the same poll window), after
which the loop raises on a recorded error, raises a timeout when no code was
captured, and otherwise returns the code. -/
def run_callback_server (expected_state : String)
    (requests : List CallbackQuery) : Except String String :=
  let final := requests.foldl (callback_handler expected_state) ⟨none, none⟩
  match final.error_message with
  | some e => .error ("OAuth callback error: " ++ e)
  | none =>
    match final.authorization_code with
    | some c => if c = "" then .error "Timeout waiting for OAuth callback" else .ok c
    | none => .error "Timeout waiting for OAuth callback"

/-- Exit paths of the callback server. -/
inductive ListenerExit where
  | success (code : String)
  | failure (msg : String)
  | timedOut
  | cancelled
deriving Repr, DecidableEq

/-- Exit taken by the `try` block of the callback server: caller
cancellation, or the classification of the wait-loop result. -/
def listener_exit (expected_state : String) (requests : List CallbackQuery)
    (cancelled : Bool) : ListenerExit :=
  if cancelled then ListenerExit.cancelled
  else
    match run_callback_server expected_state requests with
    | .ok c => ListenerExit.success c
    | .error e =>
      if e = "Timeout waiting for OAuth callback" then ListenerExit.timedOut
      else ListenerExit.failure e

/-- Full run of the callback server including the `try/finally` around the
wait loop: the second component records that `runner.cleanup()` ran, which
releases the bound port; the `finally` clause runs it on the success,
failure, timeout and cancellation paths alike. -/
def run_callback_server_full (expected_state : String)
    (requests : List CallbackQuery) (cancelled : Bool) : ListenerExit × Bool :=
  match listener_exit expected_state requests cancelled with
  | .success c => (.success c, true)
  | .failure m => (.failure m, true)
  | .timedOut => (.timedOut, true)
  | .cancelled => (.cancelled, true)

/-- Byte value of one character of the urlsafe base64 alphabet, for a 6-bit
value (`A-Z`, `a-z`, `0-9`, `-`, `_`). -/
def b64Char (n : Nat) : Nat :=
  if n < 26 then 65 + n
  else if n < 52 then 97 + (n - 26)
  else if n < 62 then 48 + (n - 52)
  else if n = 62 then 45
  else 95

/-- `base64.urlsafe_b64encode` over byte lists: three input bytes become four
alphabet bytes; a final group of one or two bytes is padded with `=` (byte
61). -/
def b64urlEncode : List Nat → List Nat
  | [] => []
  | [b1] => [b64Char (b1 / 4), b64Char (b1 % 4 * 16), 61, 61]
  | [b1, b2] => [b64Char (b1 / 4), b64Char (b1 % 4 * 16 + b2 / 16),
      b64Char (b2 % 16 * 4), 61]
  | b1 :: b2 :: b3 :: rest =>
    b64Char (b1 / 4) :: b64Char (b1 % 4 * 16 + b2 / 16) ::
      b64Char (b2 % 16 * 4 + b3 / 64) :: b64Char (b3 % 64) :: b64urlEncode rest

/-- Python `str.rstrip("=")`: drop trailing `=` bytes. -/
def rstripEq (l : List Nat) : List Nat :=
  (l.reverse.dropWhile (fun c => c = 61)).reverse

/-- `generate_code_challenge` of `scripts/esi_pkce_auth_example.py`: the
verifier is `base64.urlsafe_b64encode(secrets.token_bytes(32))` (the 32
random bytes are the `rnd` argument), and the challenge is the urlsafe base64
encoding of the SHA-256 digest of the verifier bytes with the `=` padding
stripped.  The SHA-256 compression itself is abstracted as the `sha256`
argument. -/
def generate_code_challenge (sha256 : List Nat → List Nat) (rnd : List Nat) :
    List Nat × List Nat :=
  let code_verifier := b64urlEncode rnd
  let code_challenge := rstripEq (b64urlEncode (sha256 code_verifier))
  (code_verifier, code_challenge)

/-- Characters allowed in an unpadded urlsafe base64 string (and in an
RFC 7636 code verifier): letters, digits, `-`, `_` (and the verifier extras
`.`, `~`).  The padding byte `=` (61) is not among them. -/
def isB64UrlNoPadChar (c : Nat) : Bool :=
  decide ((65 ≤ c ∧ c ≤ 90) ∨ (97 ≤ c ∧ c ≤ 122) ∨ (48 ≤ c ∧ c ≤ 57) ∨
    c = 45 ∨ c = 95 ∨ c = 46 ∨ c = 126)

/-- Bytes never quoted by Python's `urllib.parse.quote_plus`: letters,
digits, `_`, `.`, `-`, `~`. -/
def isSafeByte (b : Nat) : Bool :=
  decide ((65 ≤ b ∧ b ≤ 90) ∨ (97 ≤ b ∧ b ≤ 122) ∨ (48 ≤ b ∧ b ≤ 57) ∨
    b = 95 ∨ b = 46 ∨ b = 45 ∨ b = 126)

/-- Uppercase hex digit byte for a value below 16. -/
def hexDigit (n : Nat) : Nat := if n < 10 then 48 + n else 55 + n

/-- Value of a hex digit byte (used when decoding `%XX` escapes). -/
def hexVal (c : Nat) : Nat :=
  if 48 ≤ c ∧ c ≤ 57 then c - 48
  else if 65 ≤ c ∧ c ≤ 70 then c - 55
  else if 97 ≤ c ∧ c ≤ 102 then c - 87
  else 0

/-- `urllib.parse.quote_plus` on one byte: space becomes `+`, safe bytes are
kept, everything else becomes `%XX` with uppercase hex. -/
def quote_plus_byte (b : Nat) : List Nat :=
  if b = 32 then [43]
  else if isSafeByte b then [b]
  else [37, hexDigit (b / 16), hexDigit (b % 16)]

/-- `urllib.parse.quote_plus` on a byte string. -/
def quote_plus (s : List Nat) : List Nat :=
  (s.map quote_plus_byte).flatten

/-- `sep.join(parts)` for a one-byte separator. -/
def joinWith (sep : Nat) : List (List Nat) → List Nat
  | [] => []
  | [p] => p
  | p :: ps => p ++ sep :: joinWith sep ps

/-- `"&".join` over the encoded `k=v` parts, as `urllib.parse.urlencode`
produces it (38 is `&`). -/
def joinAmp : List (List Nat) → List Nat := joinWith 38

/-- `" ".join(scopes)` (32 is the space byte). -/
def joinSpace : List (List Nat) → List Nat := joinWith 32

/-- `urllib.parse.urlencode`: percent-encode every key and value and join the
`k=v` parts with `&` (61 is `=`). -/
def urlencode (pairs : List (List Nat × List Nat)) : List Nat :=
  joinAmp (pairs.map (fun p => quote_plus p.1 ++ 61 :: quote_plus p.2))

/-- Splitting a byte string at every occurrence of a separator byte. -/
def splitSep (sep : Nat) : List Nat → List (List Nat)
  | [] => [[]]
  | c :: rest =>
    let r := splitSep sep rest
    if c = sep then [] :: r
    else
      match r with
      | [] => [[c]]
      | a :: as => (c :: a) :: as

/-- Splitting a `k=v` part at the first `=` byte. -/
def splitFirstEq : List Nat → List Nat × List Nat
  | [] => ([], [])
  | c :: rest =>
    if c = 61 then ([], rest)
    else
      let p := splitFirstEq rest
      (c :: p.1, p.2)

/-- Inverse of `quote_plus`: `+` becomes a space and `%XX` becomes the byte
with that hex value. -/
def unquote_plus : List Nat → List Nat
  | [] => []
  | [c] => if c = 43 then [32] else [c]
  | [c, d] => if c = 43 then 32 :: unquote_plus [d] else c :: unquote_plus [d]
  | c :: d :: e :: rest =>
    if c = 43 then 32 :: unquote_plus (d :: e :: rest)
    else if c = 37 then (hexVal d * 16 + hexVal e) :: unquote_plus rest
    else c :: unquote_plus (d :: e :: rest)

/-- Standard decoding of a query string (the check the spec states for built
authorization URLs): split on `&`, split each part at the first `=`, and
percent-decode key and value. -/
def decodeQuery (qs : List Nat) : List (List Nat × List Nat) :=
  (splitSep 38 qs).map
    (fun part => (unquote_plus (splitFirstEq part).1, unquote_plus (splitFirstEq part).2))

/-- Byte string of an ASCII string literal. -/
def strBytes (s : String) : List Nat := s.toList.map Char.toNat

/-- Query-parameter list built by `redirect_to_sso`
(`scripts/esi_pkce_auth_example.py`), in dict insertion order. -/
def sso_query_params (client_id : List Nat) (scopes : List (List Nat))
    (redirect_uri : List Nat) (challenge : List Nat) (state : List Nat) :
    List (List Nat × List Nat) :=
  [(strBytes "response_type", strBytes "code"),
   (strBytes "client_id", client_id),
   (strBytes "redirect_uri", redirect_uri),
   (strBytes "scope", joinSpace scopes),
   (strBytes "state", state),
   (strBytes "code_challenge", challenge),
   (strBytes "code_challenge_method", strBytes "S256")]

/-- `redirect_to_sso`: build the SSO authorization URL from the client id,
scopes, redirect URI and PKCE challenge, returning the URL and the CSRF
state.  The random 16-character alphanumeric state is passed in as `state`. -/
def redirect_to_sso (client_id : List Nat) (scopes : List (List Nat))
    (redirect_uri : List Nat) (challenge : List Nat) (state : List Nat) :
    List Nat × List Nat :=
  let query_string :=
    urlencode (sso_query_params client_id scopes redirect_uri challenge state)
  (strBytes "https://login.eveonline.com/v2/oauth/authorize?" ++ query_string,
   state)

/-- Raw token-endpoint response `{access_token, token_type, expires_in,
refresh_token}`. -/
structure OauthToken where
  access_token : String
  token_type : String
  expires_in : Int
  refresh_token : String
deriving Repr, DecidableEq

/-- Claims extracted from a validated JWT access token: character id from the
trailing segment of `sub`, display name from `name`, scopes from `scp`. -/
structure ValidatedToken where
  sub_character_id : Nat
  name : String
  scp : List String
deriving Repr, DecidableEq

/-- Python object holding a `CharacterToken`: `oid` is the object identity
(`id()`), distinguishing a freshly constructed instance from a mutated
existing one. -/
structure TokenObj where
  oid : Nat
  tok : CharacterToken
deriving Repr, DecidableEq

/-- `make_character_token` (`src/esi_auth/esi_auth.py`): construct a brand-new
`CharacterToken` from the validated claims and the raw token response;
`created_at` and `updated_at` default to the current instant and
`expires_at = now + expires_in`. -/
def make_character_token (validated_token : ValidatedToken) (token : OauthToken)
    (client_id : String) (now : Int) : CharacterToken :=
  { character_id := validated_token.sub_character_id
    character_name := validated_token.name
    access_token := token.access_token
    refresh_token := token.refresh_token
    client_id := client_id
    expires_at := now + token.expires_in
    scopes := validated_token.scp
    token_type := token.token_type
    created_at := now
    updated_at := now }

/-- `EsiAuth._refresh_token` as an operation on the input token object: the
network exchange and JWT validation are abstracted as their results `token`
and `validated_token`.  The first component is the state of the input object
after the call (the method only reads `refresh_token` and `client_id`), the
second is the returned object, freshly allocated with identity `freshOid` by
`make_character_token`. -/
def refresh_token_one (freshOid : Nat) (validated_token : ValidatedToken)
    (token : OauthToken) (now : Int) (t : TokenObj) : TokenObj × TokenObj :=
  (t, ⟨freshOid, make_character_token validated_token token t.tok.client_id now⟩)

/-- `ESIAuthenticator.refresh_character_token` (`src/esi_auth/auth.py`): the
method assigns `access_token`, `expires_at`, `updated_at` and (when the
response carries a non-empty one) `refresh_token` on the token object it was
given, and returns that same object.  The first component is the state of the
input object after the call, the second the returned object. -/
def refresh_character_token (token_response : OauthToken) (now : Int)
    (t : TokenObj) : TokenObj × TokenObj :=
  let tok' :=
    { t.tok with
        access_token := token_response.access_token
        expires_at := now + token_response.expires_in
        updated_at := now
        refresh_token :=
          if token_response.refresh_token ≠ "" then token_response.refresh_token
          else t.tok.refresh_token }
  (⟨t.oid, tok'⟩, ⟨t.oid, tok'⟩)

/-- Sample token used by witnesses and counterexamples. -/
def sampleToken (i : Nat) (exp : Int) : CharacterToken :=
  { character_id := i
    character_name := "Test Pilot"
    access_token := "T1"
    refresh_token := "R1"
    expires_at := exp
    scopes := ["publicData"]
    token_type := "Bearer"
    client_id := "CID"
    created_at := 0
    updated_at := 0 }

/-- Sample refresher that fails on character id 2 and otherwise returns the
token with a bumped `updated_at`. -/
def sampleRefresh (t : CharacterToken) : RefreshOutcome :=
  if t.character_id = 2 then .error "invalid_grant"
  else .ok { t with updated_at := 99, expires_at := t.expires_at + 1200 }

/-- Sample refresher that succeeds on every token. -/
def sampleRefreshOk (t : CharacterToken) : RefreshOutcome :=
  .ok { t with updated_at := 99, expires_at := t.expires_at + 1200 }

/-- Sample store with two tokens, for character ids 1 and 2. -/
def sampleStore : TokenStoreState :=
  { tokens := [(1, sampleToken 1 100), (2, sampleToken 2 100)], disk := none }

/-- Sample successful callback request with matching state. -/
def sampleGoodRequest : CallbackQuery :=
  { error := none, error_description := none, state := some "S", code := some "abc" }

/-- Sample provider-error callback request. -/
def sampleErrorRequest : CallbackQuery :=
  { error := some "access_denied", error_description := none, state := none,
    code := none }

/-- Sample callback request with a mismatched state and a code present. -/
def sampleMismatchRequest : CallbackQuery :=
  { error := none, error_description := none, state := some "X",
    code := some "abc" }

/-- Sample client id bytes. -/
def sampleClientId : List Nat := strBytes "CID123"

/-- Sample scope list. -/
def sampleScopes : List (List Nat) :=
  [strBytes "publicData", strBytes "esi-skills.read_skills.v1"]

/-- Sample redirect URI bytes. -/
def sampleRedirectUri : List Nat := strBytes "http://localhost:8080/callback"

/-- Sample PKCE challenge bytes. -/
def sampleChallenge : List Nat := strBytes "abcXYZ-_"

/-- Sample 16-character CSRF state bytes. -/
def sampleState : List Nat := strBytes "q1w2e3r4t5y6u7i8"

/-- Sample stand-in for a SHA-256 digest function (constant 32-byte
output). -/
def sampleSha (_input : List Nat) : List Nat := List.replicate 32 255

/-- Sample 32-byte output of `secrets.token_bytes(32)`. -/
def sampleRandomBytes : List Nat := List.replicate 32 0

/-- Sample raw token-endpoint response. -/
def sampleOauthToken : OauthToken :=
  { access_token := "T2", token_type := "Bearer", expires_in := 1200,
    refresh_token := "R2" }

/-- Sample validated JWT claims. -/
def sampleValidatedToken : ValidatedToken :=
  { sub_character_id := 1, name := "Test Pilot", scp := ["publicData"] }

/-- Sample token object with identity 7. -/
def sampleTokenObj : TokenObj := { oid := 7, tok := sampleToken 1 100 }

/-- C7: `is_expired` is true iff now is at or past `expires_at`,
`needs_refresh(buffer)` is true iff now is at or past `expires_at` minus
`buffer` minutes; a token expiring in 10 minutes does not need refresh with
buffer 5 but does with buffer 15, and a token that expired one second ago is
expired. -/
theorem c7_token_lifecycle (t : CharacterToken) (now buffer : Int) :
    (t.is_expired now = true ↔ now ≥ t.expires_at)
    ∧ (t.needs_refresh buffer now = true ↔ now ≥ t.expires_at - 60 * buffer)
    ∧ (t.expires_at = now + 600 →
        t.needs_refresh 5 now = false ∧ t.needs_refresh 15 now = true)
    ∧ (t.expires_at = now - 1 → t.is_expired now = true) := by
  refine ⟨?_, ?_, fun h => ⟨?_, ?_⟩, fun h => ?_⟩ <;>
    simp [CharacterToken.is_expired, CharacterToken.needs_refresh] <;> omega

/-- Witness for C7 at concrete inputs: expiry in 600 s at `now = 0`, buffers
5 and 15, and expiry one second in the past. -/
theorem c7_token_lifecycle_witness :
    (sampleToken 1 600).needs_refresh 5 0 = false
    ∧ (sampleToken 1 600).needs_refresh 15 0 = true
    ∧ (sampleToken 1 (-1)).is_expired 0 = true :=
  ⟨((c7_token_lifecycle (sampleToken 1 600) 0 5).2.2.1 (by decide)).1,
   ((c7_token_lifecycle (sampleToken 1 600) 0 15).2.2.1 (by decide)).2,
   (c7_token_lifecycle (sampleToken 1 (-1)) 0 0).2.2.2 (by decide)⟩

/-- C8 counterexample: `buffer_minutes = 16` lies within the claimed
acceptance interval [0, 20], yet `get_authorized_characters` rejects it with
a validation error. -/
theorem c8_buffer_bounds_counterexample :
    (0 ≤ (16 : Int) ∧ (16 : Int) ≤ 20)
    ∧ get_authorized_characters 16 []
        = .error "buffer_minutes should not exceed 15 minutes" :=
  ⟨by decide, rfl⟩

/-- C8 amended: the orchestrating layer validates the buffer to lie within
[0, 15] minutes; values below 0 and above 15 each fail with their validation
error before the refresh pipeline result is produced. -/
theorem c8_buffer_validation_amended (b : Int) (chars : List CharacterToken) :
    (get_authorized_characters b chars = .ok chars ↔ 0 ≤ b ∧ b ≤ 15)
    ∧ (get_authorized_characters b chars
        = .error "buffer_minutes must be non-negative" ↔ b < 0)
    ∧ (get_authorized_characters b chars
        = .error "buffer_minutes should not exceed 15 minutes" ↔ 15 < b) := by
  have hne : ("buffer_minutes must be non-negative" : String)
      ≠ "buffer_minutes should not exceed 15 minutes" := by decide
  by_cases h1 : b < 0
  · refine ⟨?_, ?_, ?_⟩ <;> simp [get_authorized_characters, h1, hne] <;> omega
  · by_cases h2 : b > 15
    · refine ⟨?_, ?_, ?_⟩ <;>
        simp [get_authorized_characters, h1, h2, hne, Ne.symm hne] <;> omega
    · refine ⟨?_, ?_, ?_⟩ <;> simp [get_authorized_characters, h1, h2] <;> omega

/-- C4: with no inbound request the listener result is the timeout error and
never a code, and on every exit path (success, failure, timeout,
cancellation) the `finally` clause runs `runner.cleanup()`, releasing the
bound port. -/
theorem c4_timeout_and_port_release (expected : String) :
    run_callback_server expected [] = .error "Timeout waiting for OAuth callback"
    ∧ run_callback_server_full expected [] false = (ListenerExit.timedOut, true)
    ∧ ∀ (requests : List CallbackQuery) (cancelled : Bool),
        (run_callback_server_full expected requests cancelled).2 = true := by
  refine ⟨rfl, rfl, fun requests cancelled => ?_⟩
  cases h : listener_exit expected requests cancelled <;>
    simp [run_callback_server_full, h]

/-- C3: an inbound request without an `error` key whose `state` differs from
the expected one yields the CSRF-mismatch failure, and no authorization code
is captured even when a `code` parameter is present. -/
theorem c3_csrf_mismatch (expected : String) (q : CallbackQuery)
    (hnoerr : q.error = none) (hmism : q.state ≠ some expected) :
    run_callback_server expected [q]
      = .error "OAuth callback error: Invalid state parameter (possible CSRF attack)"
    ∧ (callback_handler expected ⟨none, none⟩ q).authorization_code = none := by
  have h : callback_handler expected ⟨none, none⟩ q
      = ⟨none, some "Invalid state parameter (possible CSRF attack)"⟩ := by
    unfold callback_handler
    rw [hnoerr]
    simp [hmism]
  have hstr : ("OAuth callback error: "
        ++ "Invalid state parameter (possible CSRF attack)" : String)
      = "OAuth callback error: Invalid state parameter (possible CSRF attack)" := by
    decide
  refine ⟨?_, by simp [h]⟩
  simp only [run_callback_server, List.foldl_cons, List.foldl_nil, h, hstr]

/-- Witness for C3: expected state "S", request with state "X" and a code. -/
theorem c3_csrf_mismatch_witness :
    run_callback_server "S" [sampleMismatchRequest]
      = .error "OAuth callback error: Invalid state parameter (possible CSRF attack)"
    ∧ (callback_handler "S" ⟨none, none⟩ sampleMismatchRequest).authorization_code
      = none :=
  c3_csrf_mismatch "S" sampleMismatchRequest rfl (by decide)

/-- C2 counterexample: a first request with matching state and code "abc"
drives the listener to the Succeeded outcome, yet a second inbound request
carrying `error=access_denied`, processed in the same poll window, changes
the listener's result from `ok "abc"` to a failure — the listener is not
single-shot. -/
theorem c2_single_shot_counterexample :
    run_callback_server "S" [sampleGoodRequest] = .ok "abc"
    ∧ run_callback_server "S" [sampleGoodRequest, sampleErrorRequest]
        = .error "OAuth callback error: access_denied" :=
  ⟨rfl, rfl⟩

/-- Error persistence of the callback handler: a recorded error message is
never cleared by later requests. -/
theorem callback_handler_error_persists (expected : String)
    (more : List CallbackQuery) :
    ∀ st : ListenerState, st.error_message ≠ none →
      (more.foldl (callback_handler expected) st).error_message ≠ none := by
  have step : ∀ (st : ListenerState) (q : CallbackQuery),
      st.error_message ≠ none → (callback_handler expected st q).error_message ≠ none := by
    intro st q h
    unfold callback_handler
    cases hq : q.error with
    | some e => simp
    | none =>
      by_cases hs : q.state = some expected
      · by_cases hc : q.code = none ∨ q.code = some ""
        · simp [hs, hc]
        · simp [hs, hc, h]
      · simp [hs]
  induction more with
  | nil => intro st h; exact h
  | cons q rest ih =>
    intro st h
    exact ih _ (step st q h)

/-- C2 amended: once a request has driven the listener to a failure (an error
message is recorded), no later inbound request can change the outcome to a
success — the result for any extension of the request sequence is still an
error.  (The converse direction fails: a captured authorization code can
still be overwritten by a later request processed in the same poll window,
per the counterexample.) -/
theorem c2_failure_outcome_stable (expected : String)
    (reqs more : List CallbackQuery)
    (h : (reqs.foldl (callback_handler expected) ⟨none, none⟩).error_message ≠ none) :
    ∃ e, run_callback_server expected (reqs ++ more) = .error e := by
  have hfin := callback_handler_error_persists expected more
    (reqs.foldl (callback_handler expected) ⟨none, none⟩) h
  obtain ⟨e, he⟩ := Option.ne_none_iff_exists'.mp hfin
  refine ⟨"OAuth callback error: " ++ e, ?_⟩
  simp only [run_callback_server, List.foldl_append, he]

/-- Witness for C2 amended: an error request followed by a good request still
yields an error. -/
theorem c2_failure_outcome_stable_witness :
    ∃ e, run_callback_server "S" ([sampleErrorRequest] ++ [sampleGoodRequest])
      = .error e :=
  c2_failure_outcome_stable "S" [sampleErrorRequest] [sampleGoodRequest]
    (by decide)

/-- C1: the batch refresh returns exactly one outcome per input token — the
i-th outcome is the refresh of the i-th input, so every input identity id
appears exactly once, tagged positionally — and the outcome for one token
depends only on that token: replacing the refresher by one that agrees on
token i (but may fail every other token) leaves outcome i unchanged. -/
theorem c1_refresh_many_per_item_outcomes
    (f : CharacterToken → RefreshOutcome) (tokens : List CharacterToken) :
    (refreshAllTokens f tokens).length = tokens.length
    ∧ (∀ i : Nat, (refreshAllTokens f tokens)[i]? = (tokens[i]?).map f)
    ∧ (∀ (g : CharacterToken → RefreshOutcome) (i : Nat) (t : CharacterToken),
        tokens[i]? = some t → f t = g t →
        (refreshAllTokens f tokens)[i]? = (refreshAllTokens g tokens)[i]?)
    ∧ (tokens.zip (refreshAllTokens f tokens)).map (fun p => p.1.character_id)
        = tokens.map (fun t => t.character_id) := by
  refine ⟨by simp [refreshAllTokens], fun i => by simp [refreshAllTokens], ?_, ?_⟩
  · intro g i t ht hfg
    simp only [refreshAllTokens, List.getElem?_map, ht, Option.map_some']
    simp [hfg]
  · induction tokens with
    | nil => rfl
    | cons t ts ih =>
      simpa [refreshAllTokens] using ih

/-- Witness for C1: with refreshers `sampleRefresh` (fails id 2) and
`sampleRefreshOk` (never fails), which agree on the token with id 1, the
outcome at position 0 is unchanged even though position 1 fails under one
and succeeds under the other. -/
theorem c1_refresh_many_per_item_outcomes_witness :
    (refreshAllTokens sampleRefresh [sampleToken 1 100, sampleToken 2 100])[0]?
      = (refreshAllTokens sampleRefreshOk [sampleToken 1 100, sampleToken 2 100])[0]? :=
  (c1_refresh_many_per_item_outcomes sampleRefresh
    [sampleToken 1 100, sampleToken 2 100]).2.2.1 sampleRefreshOk 0
    (sampleToken 1 100) rfl rfl

/-- Length of a urlsafe base64 encoding: four output bytes per started group
of three input bytes. -/
theorem b64urlEncode_length : ∀ l : List Nat,
    (b64urlEncode l).length = 4 * ((l.length + 2) / 3)
  | [] => rfl
  | [_] => by simp [b64urlEncode]
  | [_, _] => by simp [b64urlEncode]
  | _ :: _ :: _ :: rest => by
    have ih := b64urlEncode_length rest
    simp only [b64urlEncode, List.length_cons, ih]
    omega

/-- An input whose length is not a multiple of three is encoded with `=`
padding (byte 61). -/
theorem b64urlEncode_padding : ∀ l : List Nat,
    l.length % 3 ≠ 0 → 61 ∈ b64urlEncode l
  | [], h => by simp at h
  | [b], _ => by simp [b64urlEncode]
  | [b1, b2], _ => by simp [b64urlEncode]
  | b1 :: b2 :: b3 :: rest, h => by
    have ih := b64urlEncode_padding rest (by
      simp only [List.length_cons] at h
      omega)
    simp [b64urlEncode, ih]

/-- C5 counterexample: for a concrete 32-byte random input the generated
verifier is not a padding-free base64url string — it contains the `=`
padding byte, so not all of its characters are drawn from the unpadded
base64url alphabet. -/
theorem c5_verifier_padding_counterexample :
    ¬ (∀ c ∈ (generate_code_challenge sampleSha sampleRandomBytes).1,
        isB64UrlNoPadChar c = true) := by
  decide

/-- C5 amended: for 32 bytes of randomness the verifier is the urlsafe
base64 encoding of those bytes, of length 44 (within [43, 128]) but ending
in an `=` padding byte rather than being padding-free, and the challenge is
exactly the urlsafe base64 encoding, padding stripped, of the SHA-256 digest
of the verifier bytes. -/
theorem c5_pkce_pair_amended (sha256 : List Nat → List Nat) (rnd : List Nat)
    (h : rnd.length = 32) :
    ((generate_code_challenge sha256 rnd).1).length = 44
    ∧ 43 ≤ ((generate_code_challenge sha256 rnd).1).length
    ∧ ((generate_code_challenge sha256 rnd).1).length ≤ 128
    ∧ (generate_code_challenge sha256 rnd).2
        = rstripEq (b64urlEncode (sha256 ((generate_code_challenge sha256 rnd).1)))
    ∧ 61 ∈ (generate_code_challenge sha256 rnd).1 := by
  have hlen : ((generate_code_challenge sha256 rnd).1).length = 44 := by
    show (b64urlEncode rnd).length = 44
    rw [b64urlEncode_length, h]
  refine ⟨hlen, by omega, by omega, rfl, ?_⟩
  show 61 ∈ b64urlEncode rnd
  exact b64urlEncode_padding rnd (by rw [h]; decide)

/-- Witness for C5 amended at the concrete 32-byte inputs. -/
theorem c5_pkce_pair_amended_witness :
    ((generate_code_challenge sampleSha sampleRandomBytes).1).length = 44
    ∧ 43 ≤ ((generate_code_challenge sampleSha sampleRandomBytes).1).length
    ∧ ((generate_code_challenge sampleSha sampleRandomBytes).1).length ≤ 128
    ∧ (generate_code_challenge sampleSha sampleRandomBytes).2
        = rstripEq (b64urlEncode (sampleSha
            ((generate_code_challenge sampleSha sampleRandomBytes).1)))
    ∧ 61 ∈ (generate_code_challenge sampleSha sampleRandomBytes).1 :=
  c5_pkce_pair_amended sampleSha sampleRandomBytes (by decide)

/-- C9 counterexample: the legacy `ESIAuthenticator.refresh_character_token`
leaves the input token object changed after the call (its fields are
assigned in place) and returns the very same object (same identity), so the
refresh neither preserves the input nor produces a brand-new value. -/
theorem c9_refresh_inplace_counterexample :
    (refresh_character_token sampleOauthToken 5 sampleTokenObj).1 ≠ sampleTokenObj
    ∧ (refresh_character_token sampleOauthToken 5 sampleTokenObj).2.oid
        = sampleTokenObj.oid := by
  decide

/-- C9 amended: the batch per-item refresh `EsiAuth._refresh_token` leaves
every field of the input token object unchanged and returns a freshly
allocated `CharacterToken` built by `make_character_token` from the refresh
response and validated claims; the legacy
`ESIAuthenticator.refresh_character_token` instead updates its input in
place and returns that same object. -/
theorem c9_batch_refresh_fresh_copy (freshOid : Nat) (vt : ValidatedToken)
    (resp : OauthToken) (now : Int) (t : TokenObj) (h : freshOid ≠ t.oid) :
    (refresh_token_one freshOid vt resp now t).1 = t
    ∧ (refresh_token_one freshOid vt resp now t).2.oid ≠ t.oid
    ∧ (refresh_token_one freshOid vt resp now t).2.tok
        = make_character_token vt resp t.tok.client_id now :=
  ⟨rfl, h, rfl⟩

/-- Witness for C9 amended at concrete inputs (fresh identity 99, input
object identity 7). -/
theorem c9_batch_refresh_fresh_copy_witness :
    (refresh_token_one 99 sampleValidatedToken sampleOauthToken 5 sampleTokenObj).1
      = sampleTokenObj
    ∧ (refresh_token_one 99 sampleValidatedToken sampleOauthToken 5
        sampleTokenObj).2.oid ≠ sampleTokenObj.oid
    ∧ (refresh_token_one 99 sampleValidatedToken sampleOauthToken 5
        sampleTokenObj).2.tok
      = make_character_token sampleValidatedToken sampleOauthToken
          sampleTokenObj.tok.client_id 5 :=
  c9_batch_refresh_fresh_copy 99 sampleValidatedToken sampleOauthToken 5
    sampleTokenObj (by decide)

/-- Decoding a hex-digit byte produced by `hexDigit` recovers the value. -/
theorem hexVal_hexDigit : ∀ n < 16, hexVal (hexDigit n) = n := by decide

/-- `hexDigit` never produces the separator bytes `&` (38) or `=` (61). -/
theorem hexDigit_ne_sep (n : Nat) : hexDigit n ≠ 38 ∧ hexDigit n ≠ 61 := by
  unfold hexDigit
  split <;> omega

/-- `quote_plus_byte` never produces `&` (38) or `=` (61). -/
theorem quote_plus_byte_no_sep (b : Nat) :
    38 ∉ quote_plus_byte b ∧ 61 ∉ quote_plus_byte b := by
  unfold quote_plus_byte
  by_cases h32 : b = 32
  · simp [h32]
  · by_cases hsafe : isSafeByte b
    · have hb : b ≠ 38 ∧ b ≠ 61 := by
        simp [isSafeByte] at hsafe
        omega
      simp [h32, hsafe, hb.1, hb.2, Ne.symm hb.1, Ne.symm hb.2]
    · have k1 := hexDigit_ne_sep (b / 16)
      have k2 := hexDigit_ne_sep (b % 16)
      simp [h32, hsafe, Ne.symm k1.1, Ne.symm k1.2, Ne.symm k2.1, Ne.symm k2.2]

/-- `quote_plus` never produces `&` (38) or `=` (61). -/
theorem quote_plus_no_sep (s : List Nat) :
    38 ∉ quote_plus s ∧ 61 ∉ quote_plus s := by
  constructor <;>
  · simp only [quote_plus, List.mem_flatten, List.mem_map]
    rintro ⟨_, ⟨b, _, rfl⟩, hmem⟩
    first
    | exact (quote_plus_byte_no_sep b).1 hmem
    | exact (quote_plus_byte_no_sep b).2 hmem

/-- `unquote_plus` passes a byte that is neither `+` (43) nor `%` (37)
through unchanged. -/
theorem unquote_plus_cons_plain (c : Nat) (rest : List Nat) (h43 : c ≠ 43)
    (h37 : c ≠ 37) : unquote_plus (c :: rest) = c :: unquote_plus rest := by
  match rest with
  | [] => simp [unquote_plus, h43]
  | [d] => simp [unquote_plus, h43]
  | d :: e :: t => simp [unquote_plus, h43, h37]

/-- `unquote_plus` decodes a leading `+` (43) to a space (32). -/
theorem unquote_plus_cons_plus (rest : List Nat) :
    unquote_plus (43 :: rest) = 32 :: unquote_plus rest := by
  match rest with
  | [] => simp [unquote_plus]
  | [d] => simp [unquote_plus]
  | d :: e :: t => simp [unquote_plus]

/-- `unquote_plus` decodes a leading `%XX` escape to the byte with that hex
value. -/
theorem unquote_plus_cons_percent (h1 h2 : Nat) (rest : List Nat) :
    unquote_plus (37 :: h1 :: h2 :: rest)
      = (hexVal h1 * 16 + hexVal h2) :: unquote_plus rest := by
  simp [unquote_plus]

/-- Decoding after quoting one byte recovers the byte, in front of any
remainder. -/
theorem unquote_quote_byte (b : Nat) (hb : b < 256) (rest : List Nat) :
    unquote_plus (quote_plus_byte b ++ rest) = b :: unquote_plus rest := by
  unfold quote_plus_byte
  by_cases h32 : b = 32
  · simp only [h32, if_true, List.cons_append, List.nil_append]
    exact unquote_plus_cons_plus rest
  · by_cases hsafe : isSafeByte b
    · have hb2 : b ≠ 43 ∧ b ≠ 37 := by
        simp [isSafeByte] at hsafe
        omega
      simp only [h32, if_false, hsafe, if_true, List.cons_append, List.nil_append]
      exact unquote_plus_cons_plain b rest hb2.1 hb2.2
    · rw [if_neg h32, if_neg hsafe]
      simp only [List.cons_append, List.nil_append]
      rw [unquote_plus_cons_percent]
      rw [hexVal_hexDigit _ (by omega), hexVal_hexDigit _ (by omega)]
      congr 1
      omega

/-- Decoding after quoting a byte string recovers it, in front of any
remainder. -/
theorem unquote_quote_append (s : List Nat) (rest : List Nat)
    (h : ∀ b ∈ s, b < 256) :
    unquote_plus (quote_plus s ++ rest) = s ++ unquote_plus rest := by
  induction s with
  | nil => simp [quote_plus]
  | cons b s ih =>
    have hq : quote_plus (b :: s) = quote_plus_byte b ++ quote_plus s := by
      simp [quote_plus]
    rw [hq, List.append_assoc,
      unquote_quote_byte b (h b (List.mem_cons_self b s)) _,
      ih (fun x hx => h x (List.mem_cons_of_mem b hx))]
    rfl

/-- `unquote_plus` is a left inverse of `quote_plus` on byte strings. -/
theorem unquote_quote (s : List Nat) (h : ∀ b ∈ s, b < 256) :
    unquote_plus (quote_plus s) = s := by
  have := unquote_quote_append s [] h
  simpa [unquote_plus] using this

/-- Splitting a separator-free byte string yields the string itself. -/
theorem splitSep_no_sep (sep : Nat) (xs : List Nat) (h : sep ∉ xs) :
    splitSep sep xs = [xs] := by
  induction xs with
  | nil => rfl
  | cons c rest ih =>
    have hc : c ≠ sep := fun hh => h (hh ▸ List.mem_cons_self c rest)
    have hr := ih (fun hm => h (List.mem_cons_of_mem c hm))
    simp [splitSep, hc, hr]

/-- Splitting past a separator-free chunk peels it off. -/
theorem splitSep_append (sep : Nat) (xs rest : List Nat) (h : sep ∉ xs) :
    splitSep sep (xs ++ sep :: rest) = xs :: splitSep sep rest := by
  induction xs with
  | nil => simp [splitSep]
  | cons c xs ih =>
    have hc : c ≠ sep := fun hh => h (hh ▸ List.mem_cons_self c xs)
    have hr := ih (fun hm => h (List.mem_cons_of_mem c hm))
    simp [splitSep, hc, hr]

/-- Splitting on the separator inverts `joinWith` for a nonempty list of
separator-free parts. -/
theorem splitSep_joinWith (sep : Nat) : ∀ (parts : List (List Nat)),
    parts ≠ [] → (∀ p ∈ parts, sep ∉ p) →
    splitSep sep (joinWith sep parts) = parts
  | [], hne, _ => absurd rfl hne
  | [p], _, h => by
    simpa [joinWith] using splitSep_no_sep sep p (h p (List.mem_singleton.mpr rfl))
  | p :: q :: qs, _, h => by
    have hj : joinWith sep (p :: q :: qs) = p ++ sep :: joinWith sep (q :: qs) := rfl
    rw [hj, splitSep_append sep p _ (h p (List.mem_cons_self p _)),
      splitSep_joinWith sep (q :: qs) (by simp)
        (fun r hr => h r (List.mem_cons_of_mem p hr))]

/-- Splitting at the first `=` from the encoded `k=v` shape recovers key and
value. -/
theorem splitFirstEq_append (k v : List Nat) (h : 61 ∉ k) :
    splitFirstEq (k ++ 61 :: v) = (k, v) := by
  induction k with
  | nil => simp [splitFirstEq]
  | cons c k ih =>
    have hc : c ≠ 61 := fun hh => h (hh ▸ List.mem_cons_self c k)
    have hr := ih (fun hm => h (List.mem_cons_of_mem c hm))
    simp [splitFirstEq, hc, hr]

/-- Decoding one encoded `k=v` part recovers the pair. -/
theorem decode_part (k v : List Nat) (hk : ∀ b ∈ k, b < 256)
    (hv : ∀ b ∈ v, b < 256) :
    (unquote_plus (splitFirstEq (quote_plus k ++ 61 :: quote_plus v)).1,
     unquote_plus (splitFirstEq (quote_plus k ++ 61 :: quote_plus v)).2)
      = (k, v) := by
  rw [splitFirstEq_append _ _ (quote_plus_no_sep k).2]
  simp [unquote_quote k hk, unquote_quote v hv]

/-- Decoding the output of `urlencode` recovers the parameter list. -/
theorem decodeQuery_urlencode : ∀ (pairs : List (List Nat × List Nat)),
    pairs ≠ [] →
    (∀ p ∈ pairs, (∀ b ∈ p.1, b < 256) ∧ (∀ b ∈ p.2, b < 256)) →
    decodeQuery (urlencode pairs) = pairs := by
  intro pairs hne h
  have hparts : ∀ p ∈ pairs.map (fun p => quote_plus p.1 ++ 61 :: quote_plus p.2),
      38 ∉ p := by
    rintro part hpart
    simp only [List.mem_map] at hpart
    obtain ⟨p, hp, rfl⟩ := hpart
    intro hmem
    rcases List.mem_append.mp hmem with h1 | h1
    · exact (quote_plus_no_sep p.1).1 h1
    · rcases List.mem_cons.mp h1 with h2 | h2
      · omega
      · exact (quote_plus_no_sep p.2).1 h2
  unfold decodeQuery urlencode joinAmp
  rw [splitSep_joinWith 38 _ (by simpa using hne) hparts, List.map_map]
  conv_rhs => rw [← List.map_id pairs]
  refine List.map_congr_left ?_
  intro p hp
  exact decode_part p.1 p.2 (h p hp).1 (h p hp).2

/-- Bytes of `joinWith sep parts` are the separator or bytes of a part. -/
theorem mem_joinWith (sep : Nat) : ∀ (parts : List (List Nat)) (b : Nat),
    b ∈ joinWith sep parts → b = sep ∨ ∃ p ∈ parts, b ∈ p
  | [], b, h => by simp [joinWith] at h
  | [p], b, h => by
    right
    exact ⟨p, List.mem_singleton.mpr rfl, by simpa [joinWith] using h⟩
  | p :: q :: qs, b, h => by
    have hj : joinWith sep (p :: q :: qs) = p ++ sep :: joinWith sep (q :: qs) := rfl
    rw [hj] at h
    rcases List.mem_append.mp h with h1 | h1
    · exact Or.inr ⟨p, List.mem_cons_self p _, h1⟩
    · rcases List.mem_cons.mp h1 with h2 | h2
      · exact Or.inl h2
      · rcases mem_joinWith sep (q :: qs) b h2 with h3 | ⟨r, hr, hb⟩
        · exact Or.inl h3
        · exact Or.inr ⟨r, List.mem_cons_of_mem p hr, hb⟩

/-- C6: the built SSO URL is the authorization endpoint followed by exactly
the urlencoded parameters response_type=code, client_id, redirect_uri,
scope (space-joined, order preserved), state, code_challenge and
code_challenge_method=S256; decoding the query string reproduces exactly
those parameters, and splitting the decoded scope value on spaces recovers
the input scope list. -/
theorem c6_sso_url_query_roundtrip
    (client_id redirect_uri challenge state : List Nat)
    (scopes : List (List Nat))
    (hcid : ∀ b ∈ client_id, b < 256)
    (hruri : ∀ b ∈ redirect_uri, b < 256)
    (hch : ∀ b ∈ challenge, b < 256)
    (hst : ∀ b ∈ state, b < 256)
    (hsc : ∀ s ∈ scopes, ∀ b ∈ s, b < 256)
    (hne : scopes ≠ []) (hsp : ∀ s ∈ scopes, 32 ∉ s) :
    (redirect_to_sso client_id scopes redirect_uri challenge state).2 = state
    ∧ (redirect_to_sso client_id scopes redirect_uri challenge state).1
        = strBytes "https://login.eveonline.com/v2/oauth/authorize?"
          ++ urlencode (sso_query_params client_id scopes redirect_uri challenge state)
    ∧ decodeQuery
        (urlencode (sso_query_params client_id scopes redirect_uri challenge state))
        = sso_query_params client_id scopes redirect_uri challenge state
    ∧ splitSep 32 (joinSpace scopes) = scopes := by
  refine ⟨rfl, rfl, ?_, splitSep_joinWith 32 scopes hne hsp⟩
  refine decodeQuery_urlencode _ (by simp [sso_query_params]) ?_
  have hjs : ∀ b ∈ joinSpace scopes, b < 256 := by
    intro b hb
    rcases mem_joinWith 32 scopes b hb with rfl | ⟨s, hs, hbs⟩
    · omega
    · exact hsc s hs b hbs
  intro p hp
  fin_cases hp <;> refine ⟨?_, ?_⟩ <;> dsimp only <;>
    first | decide | assumption

/-- Witness for C6 at concrete client id, scopes, redirect URI, challenge
and state. -/
theorem c6_sso_url_query_roundtrip_witness :
    (redirect_to_sso sampleClientId sampleScopes sampleRedirectUri
        sampleChallenge sampleState).2 = sampleState
    ∧ (redirect_to_sso sampleClientId sampleScopes sampleRedirectUri
        sampleChallenge sampleState).1
        = strBytes "https://login.eveonline.com/v2/oauth/authorize?"
          ++ urlencode (sso_query_params sampleClientId sampleScopes
              sampleRedirectUri sampleChallenge sampleState)
    ∧ decodeQuery (urlencode (sso_query_params sampleClientId sampleScopes
        sampleRedirectUri sampleChallenge sampleState))
        = sso_query_params sampleClientId sampleScopes sampleRedirectUri
            sampleChallenge sampleState
    ∧ splitSep 32 (joinSpace sampleScopes) = sampleScopes :=
  c6_sso_url_query_roundtrip sampleClientId sampleRedirectUri sampleChallenge
    sampleState sampleScopes (by decide) (by decide) (by decide) (by decide)
    (by decide) (by decide) (by decide)

/-- Lookup after insertion at the same key. -/
theorem dictGet_dictInsert_self : ∀ (l : List (Nat × CharacterToken)) (k : Nat)
    (v : CharacterToken), dictGet (dictInsert l k v) k = some v
  | [], k, v => by simp [dictInsert, dictGet]
  | (k', v') :: rest, k, v => by
    by_cases h : k' = k
    · simp [dictInsert, dictGet, h]
    · simp [dictInsert, dictGet, h, dictGet_dictInsert_self rest k v]

/-- Lookup after insertion at a different key. -/
theorem dictGet_dictInsert_ne : ∀ (l : List (Nat × CharacterToken)) (k : Nat)
    (v : CharacterToken) (k2 : Nat), k2 ≠ k →
    dictGet (dictInsert l k v) k2 = dictGet l k2
  | [], k, v, k2, h => by
    simp [dictInsert, dictGet, Ne.symm h]
  | (k', v') :: rest, k, v, k2, h => by
    by_cases hk : k' = k
    · subst hk
      simp [dictInsert, dictGet, Ne.symm h, h]
    · by_cases h2 : k' = k2
      · simp [dictInsert, dictGet, hk, h2, h]
      · simp [dictInsert, dictGet, hk, h2, h, dictGet_dictInsert_ne rest k v k2 h]

/-- Inserting tokens whose ids avoid `k` leaves lookups at `k` unchanged. -/
theorem dictGet_insertAll_not_mem : ∀ (ts : List CharacterToken)
    (l : List (Nat × CharacterToken)) (k : Nat),
    k ∉ ts.map CharacterToken.character_id →
    dictGet (insertAll l ts) k = dictGet l k
  | [], _, _, _ => rfl
  | t :: ts, l, k, h => by
    have h' : k ≠ t.character_id ∧ k ∉ ts.map CharacterToken.character_id := by
      simpa using h
    rw [show insertAll l (t :: ts)
        = insertAll (dictInsert l t.character_id t) ts from rfl]
    rw [dictGet_insertAll_not_mem ts _ k h'.2,
      dictGet_dictInsert_ne l t.character_id t k h'.1]

/-- With pairwise distinct ids, inserting a token list makes each of its
members retrievable by id. -/
theorem dictGet_insertAll_mem : ∀ (ts : List CharacterToken)
    (l : List (Nat × CharacterToken)) (t : CharacterToken),
    (ts.map CharacterToken.character_id).Nodup → t ∈ ts →
    dictGet (insertAll l ts) t.character_id = some t
  | [], _, t, _, h => absurd h (List.not_mem_nil t)
  | s :: ts, l, t, hnd, hmem => by
    rw [List.map_cons] at hnd
    have hnd' := List.nodup_cons.mp hnd
    rcases List.mem_cons.mp hmem with rfl | hmem'
    · rw [show insertAll l (t :: ts)
          = insertAll (dictInsert l t.character_id t) ts from rfl]
      rw [dictGet_insertAll_not_mem ts _ _ hnd'.1, dictGet_dictInsert_self]
    · exact dictGet_insertAll_mem ts _ t hnd'.2 hmem'

/-- Characterization of the write-back loop: it inserts every success into
the store dict, flags dirty iff there was a success, appends the successes
to the ready list and collects the failures. -/
theorem refresh_write_loop_spec : ∀ (rs : List RefreshOutcome)
    (st : TokenStoreState) (dirty : Bool) (ready : List CharacterToken)
    (failed : List String),
    refresh_write_loop st dirty ready failed rs
      = ({ st with tokens := insertAll st.tokens (okValues rs) },
         (dirty || !(okValues rs).isEmpty),
         ready ++ okValues rs, failed ++ errValues rs)
  | [], st, dirty, ready, failed => by
    simp [refresh_write_loop, okValues, errValues, insertAll]
  | .error e :: rest, st, dirty, ready, failed => by
    rw [show refresh_write_loop st dirty ready failed (.error e :: rest)
        = refresh_write_loop st dirty ready (failed ++ [e]) rest from rfl]
    rw [refresh_write_loop_spec rest st dirty ready (failed ++ [e])]
    simp [okValues, errValues]
  | .ok t :: rest, st, dirty, ready, failed => by
    rw [show refresh_write_loop st dirty ready failed (.ok t :: rest)
        = refresh_write_loop
            { st with tokens := dictInsert st.tokens t.character_id t }
            true (ready ++ [t]) failed rest from rfl]
    rw [refresh_write_loop_spec rest _ true (ready ++ [t]) failed]
    simp [okValues, errValues, insertAll]

/-- A token successfully refreshed from the batch input appears among the
successes. -/
theorem mem_okValues_of_ok (f : CharacterToken → RefreshOutcome) :
    ∀ (ts : List CharacterToken) (t t' : CharacterToken),
    t ∈ ts → f t = .ok t' → t' ∈ okValues (ts.map f)
  | [], t, _, h, _ => absurd h (List.not_mem_nil t)
  | s :: ts, t, t', h, hok => by
    rcases List.mem_cons.mp h with rfl | hmem
    · rw [List.map_cons, hok]
      simp [okValues]
    · have ih := mem_okValues_of_ok f ts t t' hmem hok
      rw [List.map_cons]
      cases hfs : f s with
      | ok u => simp [okValues, ih]
      | error e => simp [okValues, ih]

/-- A failing item in the batch input makes the collected failure list
nonempty. -/
theorem errValues_ne_nil (f : CharacterToken → RefreshOutcome) :
    ∀ (ts : List CharacterToken),
    (∃ t ∈ ts, isRefreshError (f t) = true) → errValues (ts.map f) ≠ []
  | [], h => by simp at h
  | s :: ts, h => by
    rcases h with ⟨t, hmem, herr⟩
    rcases List.mem_cons.mp hmem with rfl | hmem'
    · cases hft : f t with
      | ok u => rw [hft] at herr; simp [isRefreshError] at herr
      | error e => rw [List.map_cons, hft]; simp [errValues]
    · have ih := errValues_ne_nil f ts ⟨t, hmem', herr⟩
      rw [List.map_cons]
      cases hfs : f s with
      | ok u => simpa [errValues] using ih
      | error e2 => simp [errValues]

/-- Ids of the successful outcomes form a sublist of the input ids, when the
refresher preserves the character id. -/
theorem okValues_map_ids_sublist (f : CharacterToken → RefreshOutcome)
    (hpres : ∀ t t', f t = .ok t' → t'.character_id = t.character_id) :
    ∀ ts : List CharacterToken,
      ((okValues (ts.map f)).map CharacterToken.character_id).Sublist
        (ts.map CharacterToken.character_id)
  | [] => by simp [okValues]
  | s :: ts => by
    have ih := okValues_map_ids_sublist f hpres ts
    rw [List.map_cons, List.map_cons]
    cases hfs : f s with
    | error e =>
      simp only [okValues]
      exact ih.cons _
    | ok u =>
      simp only [okValues, List.map_cons]
      rw [hpres s u hfs]
      exact ih.cons₂ _

/-- C10: when the batch refresh of `get_all_tokens` hits at least one
per-item failure, the call reports an error for the batch, yet every
successfully refreshed token has been written into the store dict under its
character id, and (as soon as one success made the store dirty) the store
has been saved to disk before the error propagates — partial progress is
preserved. -/
theorem c10_successes_saved_before_raise
    (f : CharacterToken → RefreshOutcome) (buffer now : Int)
    (st : TokenStoreState)
    (hkeys : (st.tokens.map Prod.fst).Nodup)
    (hwf : ∀ p ∈ st.tokens, p.2.character_id = p.1)
    (hpres : ∀ t t', f t = .ok t' → t'.character_id = t.character_id)
    (hbuf : buffer ≠ -1)
    (hfail : ∃ t ∈ tokensNeedingRefresh buffer now st,
      isRefreshError (f t) = true) :
    (∃ msg, (get_all_tokens true f buffer now st).2 = .error msg)
    ∧ (∀ t ∈ tokensNeedingRefresh buffer now st, ∀ t', f t = .ok t' →
        dictGet (get_all_tokens true f buffer now st).1.tokens t'.character_id
          = some t')
    ∧ ((∃ t ∈ tokensNeedingRefresh buffer now st,
          isRefreshError (f t) = false) →
        (get_all_tokens true f buffer now st).1.disk
          = some (get_all_tokens true f buffer now st).1.tokens) := by
  have herr : errValues ((tokensNeedingRefresh buffer now st).map f) ≠ [] :=
    errValues_ne_nil f _ hfail
  have hG : get_all_tokens true f buffer now st
      = refresh_finish
          ({ st with tokens := (insertAll st.tokens
              (okValues ((tokensNeedingRefresh buffer now st).map f))) },
           (false
             || !(okValues ((tokensNeedingRefresh buffer now st).map f)).isEmpty),
           tokensReady buffer now st
             ++ okValues ((tokensNeedingRefresh buffer now st).map f),
           [] ++ errValues ((tokensNeedingRefresh buffer now st).map f)) := by
    rw [show get_all_tokens true f buffer now st
        = refresh_finish (refresh_write_loop st false (tokensReady buffer now st)
            [] (refreshAllTokens f (tokensNeedingRefresh buffer now st)))
      from by simp [get_all_tokens, hbuf]]
    rw [show refreshAllTokens f (tokensNeedingRefresh buffer now st)
        = (tokensNeedingRefresh buffer now st).map f from rfl]
    rw [refresh_write_loop_spec]
  have hoknd : ((okValues ((tokensNeedingRefresh buffer now st).map f)).map
      CharacterToken.character_id).Nodup := by
    have hval : (st.tokens.map Prod.snd).map CharacterToken.character_id
        = st.tokens.map Prod.fst := by
      rw [List.map_map]
      exact List.map_congr_left hwf
    have hsub1 : ((tokensNeedingRefresh buffer now st).map
        CharacterToken.character_id).Sublist
        ((st.tokens.map Prod.snd).map CharacterToken.character_id) :=
      (List.filter_sublist _).map _
    have hnd1 : ((tokensNeedingRefresh buffer now st).map
        CharacterToken.character_id).Nodup :=
      (hsub1.nodup) (hval ▸ hkeys)
    exact (okValues_map_ids_sublist f hpres _).nodup hnd1
  rw [hG]
  unfold refresh_finish
  simp only [List.nil_append]
  rw [if_pos herr]
  refine ⟨⟨_, rfl⟩, ?_, ?_⟩
  · intro t hmem t' hok
    have hget := dictGet_insertAll_mem _ st.tokens t' hoknd
      (mem_okValues_of_ok f _ t t' hmem hok)
    cases hcond : (false
        || !(okValues ((tokensNeedingRefresh buffer now st).map f)).isEmpty) <;>
      simpa [hcond, save_store] using hget
  · rintro ⟨t, hmem, hsucc⟩
    obtain ⟨t2, hok⟩ : ∃ t2, f t = .ok t2 := by
      cases hft : f t with
      | ok u => exact ⟨u, rfl⟩
      | error e => rw [hft] at hsucc; simp [isRefreshError] at hsucc
    have hne : okValues ((tokensNeedingRefresh buffer now st).map f) ≠ [] :=
      List.ne_nil_of_mem (mem_okValues_of_ok f _ t t2 hmem hok)
    have hcond : (false
        || !(okValues ((tokensNeedingRefresh buffer now st).map f)).isEmpty)
          = true := by
      simp [List.isEmpty_iff, hne]
    simp [hcond, save_store]

/-- Witness for C10: store with tokens for ids 1 and 2, both needing refresh
at `now = 0` with buffer 5; the refresher fails id 2 and succeeds id 1. -/
theorem c10_successes_saved_before_raise_witness :
    (∃ msg, (get_all_tokens true sampleRefresh 5 0 sampleStore).2 = .error msg)
    ∧ (∀ t ∈ tokensNeedingRefresh 5 0 sampleStore, ∀ t',
        sampleRefresh t = .ok t' →
        dictGet (get_all_tokens true sampleRefresh 5 0 sampleStore).1.tokens
          t'.character_id = some t')
    ∧ ((∃ t ∈ tokensNeedingRefresh 5 0 sampleStore,
          isRefreshError (sampleRefresh t) = false) →
        (get_all_tokens true sampleRefresh 5 0 sampleStore).1.disk
          = some (get_all_tokens true sampleRefresh 5 0 sampleStore).1.tokens) :=
  c10_successes_saved_before_raise sampleRefresh 5 0 sampleStore (by decide)
    (by decide)
    (by
      intro t t' h
      unfold sampleRefresh at h
      split at h
      · simp at h
      · cases h
        rfl)
    (by decide) (by decide)

end EsiAuth
